import Mathlib

/-!
Verification of the trip-statistics computation (`calculateStats` in the
history view) of the rastreioveicular fleet-tracking dashboard.

The computation is a pure numeric reduction over an in-memory array of
GPS tracking records.  We embed it shallowly over the real numbers:
JavaScript `number` becomes `ℝ`, `Math.sin`/`Math.cos`/`Math.atan2`/
`Math.sqrt` become their exact real counterparts, and the record type
mirrors the `TrackingRecord` interface of the source.  The `timestamp`
field is an ISO-8601 string in the source, used only for ordering; we
model it as a real-valued instant (lexicographic order on ISO strings
coincides with chronological order).
-/

open Real

set_option maxHeartbeats 1000000

/-- Mirror of the source `TrackingRecord` interface:
`{ id, latitude, longitude, speed, timestamp, heading }`. -/
structure TrackingRecord where
  id : String
  latitude : ℝ
  longitude : ℝ
  speed : ℝ
  timestamp : ℝ
  heading : Option ℝ

/-- Mirror of the `stats` state record set by `calculateStats`:
`{ totalRecords, avgSpeed, maxSpeed, totalDistance }`. -/
structure TripStats where
  totalRecords : ℕ
  avgSpeed : ℝ
  maxSpeed : ℝ
  totalDistance : ℝ

/-- JavaScript `Math.atan2 y x` over exact reals (the branch at `x = 0`,
`y = 0` returns `0`, matching `Math.atan2(0, 0)` on positive zeros). -/
noncomputable def atan2 (y x : ℝ) : ℝ :=
  if 0 < x then Real.arctan (y / x)
  else if x < 0 then
    if 0 ≤ y then Real.arctan (y / x) + Real.pi
    else Real.arctan (y / x) - Real.pi
  else
    if 0 < y then Real.pi / 2
    else if y < 0 then -(Real.pi / 2)
    else 0

/-- One iteration of the distance loop in `calculateStats`:
the haversine distance contribution of the pair
`(records[i], records[i-1])`, with `r1 = records[i]` and
`r2 = records[i-1]`, Earth radius `R = 6371` km. -/
noncomputable def haversineTerm (r1 r2 : TrackingRecord) : ℝ :=
  let lat1 := r1.latitude
  let lon1 := r1.longitude
  let lat2 := r2.latitude
  let lon2 := r2.longitude
  let R : ℝ := 6371
  let dLat := (lat2 - lat1) * Real.pi / 180
  let dLon := (lon2 - lon1) * Real.pi / 180
  let a :=
    Real.sin (dLat / 2) * Real.sin (dLat / 2) +
      Real.cos (lat1 * Real.pi / 180) * Real.cos (lat2 * Real.pi / 180) *
        Real.sin (dLon / 2) * Real.sin (dLon / 2)
  let c := 2 * atan2 (Real.sqrt a) (Real.sqrt (1 - a))
  R * c

/-- The accumulation loop `for (let i = 1; i < records.length; i++)`
of `calculateStats`, summing `haversineTerm records[i] records[i-1]`
over consecutive positions of the array, in array order. -/
noncomputable def totalDistanceAux : List TrackingRecord → ℝ
  | [] => 0
  | [_] => 0
  | prev :: cur :: rest => haversineTerm cur prev + totalDistanceAux (cur :: rest)

/-- `Math.max(...speeds)` for the non-empty argument list produced in
`calculateStats` (the empty case is unreachable behind the length guard;
we return `0` there). -/
def listMax : List ℝ → ℝ
  | [] => 0
  | h :: t => t.foldl max h

/-- Shallow embedding of `calculateStats` from the history view: the
statistics value it computes from the fetched records (the source then
stores this value via `setStats`).  Empty input short-circuits to the
all-zero record; otherwise `avgSpeed` is `reduce((a,b) => a+b, 0)`
divided by the length, `maxSpeed` is `Math.max(...speeds)`, and
`totalDistance` is the pairwise haversine accumulation. -/
noncomputable def calculateStats (records : List TrackingRecord) : TripStats :=
  if records.length = 0 then
    { totalRecords := 0, avgSpeed := 0, maxSpeed := 0, totalDistance := 0 }
  else
    let speeds := records.map (·.speed)
    let avgSpeed := speeds.foldl (· + ·) 0 / (speeds.length : ℝ)
    let maxSpeed := listMax speeds
    { totalRecords := records.length
      avgSpeed := avgSpeed
      maxSpeed := maxSpeed
      totalDistance := totalDistanceAux records }

/-- Insertion of a record into a list sorted by ascending timestamp. -/
noncomputable def insertTs (r : TrackingRecord) : List TrackingRecord → List TrackingRecord
  | [] => [r]
  | x :: xs => if r.timestamp ≤ x.timestamp then r :: x :: xs else x :: insertTs r xs

/-- Insertion sort by ascending timestamp. -/
noncomputable def sortTs : List TrackingRecord → List TrackingRecord
  | [] => []
  | x :: xs => insertTs x (sortTs xs)

/-- Modelled from the spec: the total distance as the spec states it —
"sum, over each pair of temporally adjacent samples, of the great-circle
distance between the two points using the haversine formula with Earth
radius = 6371 km", temporal adjacency being adjacency once the sequence
is ordered by (ascending) timestamp. -/
noncomputable def specChronoDistance (l : List TrackingRecord) : ℝ :=
  totalDistanceAux (sortTs l)

/-- A call of `calculateStats` as seen from the component: it reads the
fetched records and overwrites the component's `stats` state, ignoring
the previous value. -/
noncomputable def runCalculateStats (records : List TrackingRecord)
    (_prev : TripStats) : TripStats :=
  calculateStats records

/-! ### Concrete sample records used to instantiate the properties -/

/-- Scenario A, first sample: São Paulo coordinates, speed 50. -/
def recA1 : TrackingRecord := ⟨"a1", -23.5505, -46.6333, 50, 2, none⟩

/-- Scenario A, second sample: identical coordinates, speed 60. -/
def recA2 : TrackingRecord := ⟨"a2", -23.5505, -46.6333, 60, 1, none⟩

/-- Scenario B, first sample: the point `(0, 0)` on the equator. -/
def recB1 : TrackingRecord := ⟨"b1", 0, 0, 0, 2, none⟩

/-- Scenario B, second sample: the point `(0, 1)` on the equator. -/
def recB2 : TrackingRecord := ⟨"b2", 0, 1, 0, 1, none⟩

/-- Scenario C samples with speeds 10, 20, 30. -/
def recC1 : TrackingRecord := ⟨"c1", 0, 0, 10, 3, none⟩

def recC2 : TrackingRecord := ⟨"c2", 0, 0, 20, 2, none⟩

def recC3 : TrackingRecord := ⟨"c3", 0, 0, 30, 1, none⟩

/-- Oldest sample of the order-dependence scenario, at longitude 0. -/
def recD1 : TrackingRecord := ⟨"d1", 0, 0, 0, 1, none⟩

/-- Middle sample of the order-dependence scenario, at longitude 90. -/
def recD2 : TrackingRecord := ⟨"d2", 0, 90, 0, 2, none⟩

/-- Newest sample of the order-dependence scenario, back at longitude 0. -/
def recD3 : TrackingRecord := ⟨"d3", 0, 0, 0, 3, none⟩

/-- A storage order that is not sorted by timestamp (timestamps 2, 1, 3). -/
def unsortedTrack : List TrackingRecord := [recD2, recD1, recD3]

/-- Samples used to instantiate the max-vs-average property. -/
def recE1 : TrackingRecord := ⟨"e1", 10, 20, 5, 2, none⟩

def recE2 : TrackingRecord := ⟨"e2", 11, 21, 7, 1, none⟩

/-- Samples with in-contract coordinates for the nonnegativity property. -/
def recF1 : TrackingRecord := ⟨"f1", 45, 120, 30, 2, none⟩

def recF2 : TrackingRecord := ⟨"f2", -60, -150, 40, 1, none⟩

/-- Samples used to instantiate the permutation property. -/
def recP1 : TrackingRecord := ⟨"p1", 1, 2, 35, 2, none⟩

def recP2 : TrackingRecord := ⟨"p2", 3, 4, 45, 1, none⟩

/-! ### Helper lemmas about `atan2` and `haversineTerm` -/

lemma atan2_nonneg {y x : ℝ} (hy : 0 ≤ y) (hx : 0 ≤ x) : 0 ≤ atan2 y x := by
  unfold atan2
  split_ifs with h1 h2 h3 h4
  · have h0 : Real.arctan 0 ≤ Real.arctan (y / x) :=
      Real.arctan_strictMono.monotone (div_nonneg hy h1.le)
    simpa [Real.arctan_zero] using h0
  all_goals linarith [Real.pi_pos]

lemma atan2_zero_one : atan2 0 1 = 0 := by
  unfold atan2
  rw [if_pos (by norm_num : (0:ℝ) < 1)]
  norm_num [Real.arctan_zero]

lemma atan2_sin_cos {x : ℝ} (h1 : 0 ≤ x) (h2 : x < Real.pi / 2) :
    atan2 (Real.sin x) (Real.cos x) = x := by
  have hcos : 0 < Real.cos x := by
    apply Real.cos_pos_of_mem_Ioo
    constructor
    · linarith [Real.pi_pos]
    · exact h2
  unfold atan2
  rw [if_pos hcos, ← Real.tan_eq_sin_div_cos, Real.arctan_tan (by linarith [Real.pi_pos]) h2]

lemma haversineTerm_symm (r1 r2 : TrackingRecord) :
    haversineTerm r1 r2 = haversineTerm r2 r1 := by
  simp only [haversineTerm]
  have ha :
      Real.sin ((r2.latitude - r1.latitude) * Real.pi / 180 / 2) *
            Real.sin ((r2.latitude - r1.latitude) * Real.pi / 180 / 2) +
          Real.cos (r1.latitude * Real.pi / 180) * Real.cos (r2.latitude * Real.pi / 180) *
              Real.sin ((r2.longitude - r1.longitude) * Real.pi / 180 / 2) *
            Real.sin ((r2.longitude - r1.longitude) * Real.pi / 180 / 2) =
        Real.sin ((r1.latitude - r2.latitude) * Real.pi / 180 / 2) *
            Real.sin ((r1.latitude - r2.latitude) * Real.pi / 180 / 2) +
          Real.cos (r2.latitude * Real.pi / 180) * Real.cos (r1.latitude * Real.pi / 180) *
              Real.sin ((r1.longitude - r2.longitude) * Real.pi / 180 / 2) *
            Real.sin ((r1.longitude - r2.longitude) * Real.pi / 180 / 2) := by
    rw [show (r2.latitude - r1.latitude) * Real.pi / 180 / 2 =
        -((r1.latitude - r2.latitude) * Real.pi / 180 / 2) by ring,
      show (r2.longitude - r1.longitude) * Real.pi / 180 / 2 =
        -((r1.longitude - r2.longitude) * Real.pi / 180 / 2) by ring,
      Real.sin_neg, Real.sin_neg]
    ring
  rw [ha]

lemma haversineTerm_nonneg (r1 r2 : TrackingRecord) : 0 ≤ haversineTerm r1 r2 := by
  simp only [haversineTerm]
  refine mul_nonneg (by norm_num) (mul_nonneg (by norm_num) ?_)
  exact atan2_nonneg (Real.sqrt_nonneg _) (Real.sqrt_nonneg _)

lemma haversineTerm_same (r1 r2 : TrackingRecord)
    (hlat : r1.latitude = r2.latitude) (hlon : r1.longitude = r2.longitude) :
    haversineTerm r1 r2 = 0 := by
  simp only [haversineTerm, hlat, hlon, sub_self, zero_mul, zero_div, Real.sin_zero,
    mul_zero, zero_add, add_zero, Real.sqrt_zero, sub_zero, Real.sqrt_one, atan2_zero_one]

/-- On the equator (both latitudes `0`), the haversine pair distance has
the closed form `6371 * |Δlon| * π / 180`, provided `|Δlon| < 180`. -/
lemma haversineTerm_equator (r1 r2 : TrackingRecord)
    (h1 : r1.latitude = 0) (h2 : r2.latitude = 0)
    (h : |r2.longitude - r1.longitude| < 180) :
    haversineTerm r1 r2 = 6371 * (|r2.longitude - r1.longitude| * Real.pi / 180) := by
  have hpi := Real.pi_pos
  simp only [haversineTerm, h1, h2, sub_zero, zero_mul, zero_div, Real.sin_zero,
    mul_zero, zero_add, Real.cos_zero, one_mul]
  set x : ℝ := (r2.longitude - r1.longitude) * Real.pi / 180 / 2 with hxdef
  have hxabs : |x| = |r2.longitude - r1.longitude| * Real.pi / 180 / 2 := by
    rw [hxdef, abs_div, abs_div, abs_mul, abs_of_pos hpi,
      abs_of_pos (show (0:ℝ) < 180 by norm_num), abs_of_pos (show (0:ℝ) < 2 by norm_num)]
  have hxlt : |x| < Real.pi / 2 := by
    rw [hxabs]
    have hq : (0:ℝ) < Real.pi / 180 / 2 := by positivity
    calc |r2.longitude - r1.longitude| * Real.pi / 180 / 2
        = |r2.longitude - r1.longitude| * (Real.pi / 180 / 2) := by ring
      _ < 180 * (Real.pi / 180 / 2) := by exact mul_lt_mul_of_pos_right h hq
      _ = Real.pi / 2 := by ring
  have hsinsq : Real.sin x * Real.sin x = Real.sin x ^ 2 := by ring
  have hsub : 1 - Real.sin x ^ 2 = Real.cos x ^ 2 := by
    have := Real.sin_sq_add_cos_sq x
    linarith
  have hcospos : 0 < Real.cos x := by
    apply Real.cos_pos_of_mem_Ioo
    constructor
    · exact neg_lt_of_abs_lt hxlt
    · exact lt_of_abs_lt hxlt
  have hsqrt1 : Real.sqrt (Real.sin x * Real.sin x) = Real.sin |x| := by
    rw [hsinsq, Real.sqrt_sq_eq_abs]
    rcases le_or_lt 0 x with hx0 | hx0
    · rw [abs_of_nonneg hx0, abs_of_nonneg]
      have : x < Real.pi := by
        have := lt_of_abs_lt hxlt
        linarith
      exact Real.sin_nonneg_of_nonneg_of_le_pi hx0 this.le
    · rw [abs_of_neg hx0, Real.sin_neg, abs_of_nonpos]
      have hge : -Real.pi < x := by
        have := neg_lt_of_abs_lt hxlt
        linarith
      have : Real.sin x ≤ 0 := by
        have := Real.sin_nonneg_of_nonneg_of_le_pi (show (0:ℝ) ≤ -x by linarith)
          (show -x ≤ Real.pi by linarith)
        rw [Real.sin_neg] at this
        linarith
      exact this
  have hsqrt2 : Real.sqrt (1 - Real.sin x * Real.sin x) = Real.cos |x| := by
    rw [hsinsq, hsub, Real.sqrt_sq_eq_abs, abs_of_pos hcospos, ← Real.cos_abs]
  rw [hsqrt1, hsqrt2, atan2_sin_cos (abs_nonneg x) hxlt]
  rw [hxabs]
  ring

/-! ### The accumulation loop: reversal and structure lemmas -/

/-- The contribution of the final pair when one record is appended. -/
noncomputable def lastStep (r : TrackingRecord) : List TrackingRecord → ℝ
  | [] => 0
  | [y] => haversineTerm r y
  | _ :: y :: ys => lastStep r (y :: ys)

lemma totalDistanceAux_concat (l : List TrackingRecord) (r : TrackingRecord) :
    totalDistanceAux (l ++ [r]) = totalDistanceAux l + lastStep r l := by
  induction l with
  | nil => simp [totalDistanceAux, lastStep]
  | cons a t ih =>
    cases t with
    | nil => simp [totalDistanceAux, lastStep]
    | cons b u =>
      simp only [List.cons_append, List.append_eq, totalDistanceAux, lastStep] at ih ⊢
      rw [ih]
      ring

lemma lastStep_concat (r y : TrackingRecord) (l : List TrackingRecord) :
    lastStep r (l ++ [y]) = haversineTerm r y := by
  induction l with
  | nil => simp [lastStep]
  | cons a t ih =>
    cases t with
    | nil => simp [lastStep]
    | cons b u =>
      simp only [List.cons_append, List.append_eq, lastStep] at ih ⊢
      exact ih

lemma lastStep_reverse (r y : TrackingRecord) (t : List TrackingRecord) :
    lastStep r (y :: t).reverse = haversineTerm r y := by
  rw [List.reverse_cons]
  exact lastStep_concat r y t.reverse

lemma totalDistanceAux_reverse (l : List TrackingRecord) :
    totalDistanceAux l.reverse = totalDistanceAux l := by
  induction l with
  | nil => rfl
  | cons a t ih =>
    rw [List.reverse_cons, totalDistanceAux_concat, ih]
    cases t with
    | nil => simp [lastStep, totalDistanceAux]
    | cons b u =>
      rw [show (b :: u).reverse = (b :: u).reverse from rfl, lastStep_reverse a b u]
      simp only [totalDistanceAux]
      rw [haversineTerm_symm a b]
      ring

/-! ### Speed aggregation lemmas -/

lemma foldl_add_eq (l : List ℝ) (a : ℝ) : l.foldl (· + ·) a = a + l.sum := by
  induction l generalizing a with
  | nil => simp
  | cons h t ih =>
    simp only [List.foldl_cons, List.sum_cons, ih]
    ring

lemma le_foldl_max (l : List ℝ) (a : ℝ) : a ≤ l.foldl max a := by
  induction l generalizing a with
  | nil => simp
  | cons h t ih =>
    simp only [List.foldl_cons]
    exact le_trans (le_max_left a h) (ih (max a h))

lemma mem_le_foldl_max (l : List ℝ) (a x : ℝ) (hx : x ∈ l) : x ≤ l.foldl max a := by
  induction l generalizing a with
  | nil => simp at hx
  | cons h t ih =>
    simp only [List.foldl_cons]
    rcases List.mem_cons.mp hx with rfl | hmem
    · exact le_trans (le_max_right a x) (le_foldl_max t (max a x))
    · exact ih (max a h) hmem

lemma foldl_max_mem (l : List ℝ) (a : ℝ) : l.foldl max a ∈ a :: l := by
  induction l generalizing a with
  | nil => simp
  | cons h t ih =>
    simp only [List.foldl_cons]
    rcases List.mem_cons.mp (ih (max a h)) with heq | hmem
    · rcases max_choice a h with hc | hc
      · exact List.mem_cons.mpr (Or.inl (heq.trans hc))
      · exact List.mem_cons.mpr (Or.inr (List.mem_cons.mpr (Or.inl (heq.trans hc))))
    · exact List.mem_cons.mpr (Or.inr (List.mem_cons.mpr (Or.inr hmem)))

lemma listMax_mem (l : List ℝ) (h : l ≠ []) : listMax l ∈ l := by
  cases l with
  | nil => exact absurd rfl h
  | cons a t => exact foldl_max_mem t a

lemma le_listMax (l : List ℝ) (x : ℝ) (hx : x ∈ l) : x ≤ listMax l := by
  cases l with
  | nil => simp at hx
  | cons a t =>
    rcases List.mem_cons.mp hx with rfl | hmem
    · exact le_foldl_max t x
    · exact mem_le_foldl_max t a x hmem

lemma sum_le_card_mul_listMax (l : List ℝ) (h : l ≠ []) :
    l.sum ≤ (l.length : ℝ) * listMax l := by
  induction l with
  | nil => exact absurd rfl h
  | cons a t ih =>
    rcases eq_or_ne t [] with rfl | ht
    · simp [listMax]
    · have h1 : t.sum ≤ (t.length : ℝ) * listMax t := ih ht
      have h2 : listMax t ≤ listMax (a :: t) := by
        apply le_listMax
        exact List.mem_cons.mpr (Or.inr (listMax_mem t ht))
      have h3 : a ≤ listMax (a :: t) := le_listMax _ a (List.mem_cons.mpr (Or.inl rfl))
      have h4 : (t.length : ℝ) * listMax t ≤ (t.length : ℝ) * listMax (a :: t) :=
        mul_le_mul_of_nonneg_left h2 (Nat.cast_nonneg t.length)
      have h5 : List.sum (a :: t) = a + t.sum := List.sum_cons
      rw [h5, List.length_cons]
      push_cast
      nlinarith [h1, h3, h4]

/-! ### Sorting lemmas for chronological adjacency -/

lemma insertTs_append_of_forall_lt (r : TrackingRecord) (l : List TrackingRecord)
    (h : ∀ y ∈ l, y.timestamp < r.timestamp) : insertTs r l = l ++ [r] := by
  induction l with
  | nil => rfl
  | cons a t ih =>
    have ha : a.timestamp < r.timestamp := h a (List.mem_cons.mpr (Or.inl rfl))
    simp only [insertTs, if_neg (not_le.mpr ha)]
    rw [ih (fun y hy => h y (List.mem_cons.mpr (Or.inr hy)))]
    rfl

/-- A list with strictly descending timestamps is sorted into its own
reverse by the ascending insertion sort. -/
lemma sortTs_of_strictDesc (l : List TrackingRecord)
    (h : l.Pairwise (fun a b => b.timestamp < a.timestamp)) :
    sortTs l = l.reverse := by
  induction l with
  | nil => rfl
  | cons a t ih =>
    rw [List.pairwise_cons] at h
    simp only [sortTs]
    rw [ih h.2, insertTs_append_of_forall_lt a t.reverse
      (fun y hy => h.1 y (List.mem_reverse.mp hy)), List.reverse_cons]

lemma totalDistanceAux_nonneg (l : List TrackingRecord) : 0 ≤ totalDistanceAux l := by
  induction l with
  | nil => exact le_refl 0
  | cons a t ih =>
    cases t with
    | nil => exact le_refl 0
    | cons b u =>
      simp only [totalDistanceAux]
      exact add_nonneg (haversineTerm_nonneg b a) ih

lemma calculateStats_totalRecords (l : List TrackingRecord) :
    (calculateStats l).totalRecords = l.length := by
  by_cases h : l.length = 0
  · simp [calculateStats, h]
  · simp [calculateStats, h]

lemma calculateStats_totalDistance (l : List TrackingRecord) :
    (calculateStats l).totalDistance = totalDistanceAux l := by
  by_cases h : l.length = 0
  · have hnil : l = [] := List.length_eq_zero.mp h
    rw [hnil]
    rfl
  · simp only [calculateStats, if_neg h]

lemma listMax_perm (l1 l2 : List ℝ) (h : l1.Perm l2) (hne : l1 ≠ []) :
    listMax l1 = listMax l2 := by
  have hne2 : l2 ≠ [] := fun h2 => hne (by rw [h2] at h; exact h.eq_nil)
  apply le_antisymm
  · exact le_listMax l2 _ (h.mem_iff.mp (listMax_mem l1 hne))
  · exact le_listMax l1 _ (h.mem_iff.mpr (listMax_mem l2 hne2))

/-! ### The claims -/

/-- C2: for the empty input sequence, `calculateStats` returns the
all-zero statistics record (count, average, maximum and distance all
zero) and is total (it does not raise). -/
theorem C2_empty_input_all_zero :
    calculateStats [] =
      { totalRecords := 0, avgSpeed := 0, maxSpeed := 0, totalDistance := 0 } := rfl

/-- C3: for every non-empty input, `avgSpeed` is the arithmetic mean of
the samples' speeds (their sum divided by the count) and `maxSpeed` is
the maximum of the samples' speeds (an attained upper bound). -/
theorem C3_avg_is_mean_max_is_maximum (l : List TrackingRecord) (h : l ≠ []) :
    (calculateStats l).avgSpeed = (l.map (·.speed)).sum / (l.length : ℝ) ∧
      (calculateStats l).maxSpeed ∈ l.map (·.speed) ∧
      ∀ s ∈ l.map (·.speed), s ≤ (calculateStats l).maxSpeed := by
  have hlen : ¬ l.length = 0 := fun h0 => h (List.length_eq_zero.mp h0)
  have hmapne : l.map (·.speed) ≠ [] := fun hm => h (List.map_eq_nil_iff.mp hm)
  simp only [calculateStats, if_neg hlen]
  refine ⟨?_, ?_, ?_⟩
  · rw [foldl_add_eq, zero_add, List.length_map]
  · exact listMax_mem _ hmapne
  · intro s hs
    exact le_listMax _ s hs

/-- C3 witness: on scenario C (speeds 10, 20, 30) the average is 20 and
the maximum is 30. -/
theorem C3_witness :
    (calculateStats [recC1, recC2, recC3]).avgSpeed = 20 ∧
      (calculateStats [recC1, recC2, recC3]).maxSpeed = 30 := by
  obtain ⟨ha, hmem, hub⟩ :=
    C3_avg_is_mean_max_is_maximum [recC1, recC2, recC3] (by simp)
  constructor
  · rw [ha]
    norm_num [recC1, recC2, recC3]
  · have h30 : (30:ℝ) ≤ (calculateStats [recC1, recC2, recC3]).maxSpeed := by
      apply hub
      simp [recC1, recC2, recC3]
    have hm : (calculateStats [recC1, recC2, recC3]).maxSpeed = 10 ∨
        (calculateStats [recC1, recC2, recC3]).maxSpeed = 20 ∨
        (calculateStats [recC1, recC2, recC3]).maxSpeed = 30 := by
      simpa [recC1, recC2, recC3] using hmem
    rcases hm with h | h | h
    · linarith
    · linarith
    · exact h

/-- C4: whenever the computed record count is at least 1 (non-empty
input), the computed maximum speed dominates the computed average
speed. -/
theorem C4_max_ge_avg (l : List TrackingRecord)
    (h : 1 ≤ (calculateStats l).totalRecords) :
    (calculateStats l).avgSpeed ≤ (calculateStats l).maxSpeed := by
  rw [calculateStats_totalRecords] at h
  have hlen : ¬ l.length = 0 := by omega
  have hmapne : l.map (·.speed) ≠ [] :=
    fun hm => hlen (by simpa using congrArg List.length hm)
  simp only [calculateStats, if_neg hlen]
  rw [foldl_add_eq, zero_add, List.length_map]
  have hsum := sum_le_card_mul_listMax (l.map (·.speed)) hmapne
  rw [List.length_map] at hsum
  have hlpos : (0:ℝ) < (l.length : ℝ) := by
    exact_mod_cast Nat.pos_of_ne_zero hlen
  rw [div_le_iff₀ hlpos]
  nlinarith [hsum]

/-- C4 witness: instantiation on a concrete two-sample input. -/
theorem C4_witness :
    (calculateStats [recE1, recE2]).avgSpeed ≤ (calculateStats [recE1, recE2]).maxSpeed :=
  C4_max_ge_avg [recE1, recE2] (by rw [calculateStats_totalRecords]; norm_num)

/-- C5: for inputs whose samples respect the stated coordinate contract
(latitude in `[-90, 90]`, longitude in `[-180, 180]`), the computed
total distance is nonnegative. -/
theorem C5_totalDistance_nonneg (l : List TrackingRecord)
    (_h : ∀ r ∈ l, -90 ≤ r.latitude ∧ r.latitude ≤ 90 ∧
      -180 ≤ r.longitude ∧ r.longitude ≤ 180) :
    0 ≤ (calculateStats l).totalDistance := by
  by_cases hlen : l.length = 0
  · simp [calculateStats, hlen]
  · simp only [calculateStats, if_neg hlen]
    exact totalDistanceAux_nonneg l

/-- C5 witness: instantiation on a concrete in-contract input. -/
theorem C5_witness :
    0 ≤ (calculateStats [recF1, recF2]).totalDistance :=
  C5_totalDistance_nonneg [recF1, recF2] (by
    intro r hr
    rcases List.mem_cons.mp hr with rfl | hr2
    · norm_num [recF1]
    · rcases List.mem_cons.mp hr2 with rfl | hr3
      · norm_num [recF2]
      · simp at hr3)

/-- C6: reversing the whole input sequence leaves the computed total
distance unchanged. -/
theorem C6_reverse_invariant (l : List TrackingRecord) :
    (calculateStats l.reverse).totalDistance = (calculateStats l).totalDistance := by
  by_cases hlen : l.length = 0
  · have hnil : l = [] := List.length_eq_zero.mp hlen
    rw [hnil]
    rfl
  · have hlen2 : ¬ l.reverse.length = 0 := by
      rw [List.length_reverse]
      exact hlen
    simp only [calculateStats, if_neg hlen, if_neg hlen2]
    exact totalDistanceAux_reverse l

/-- C7: consecutive samples with identical coordinates contribute
exactly 0 to the accumulated distance, and on scenario A (two samples
at the same point with speeds 50 and 60) the computed statistics are
count 2, average 55, maximum 60, distance 0. -/
theorem C7_duplicate_coordinates :
    (∀ r1 r2 : TrackingRecord, ∀ rest : List TrackingRecord,
        r1.latitude = r2.latitude → r1.longitude = r2.longitude →
        totalDistanceAux (r1 :: r2 :: rest) = totalDistanceAux (r2 :: rest)) ∧
      calculateStats [recA1, recA2] =
        { totalRecords := 2, avgSpeed := 55, maxSpeed := 60, totalDistance := 0 } := by
  constructor
  · intro r1 r2 rest hlat hlon
    simp only [totalDistanceAux]
    rw [haversineTerm_same r2 r1 hlat.symm hlon.symm]
    rw [zero_add]
  · have hterm : haversineTerm recA2 recA1 = 0 :=
      haversineTerm_same recA2 recA1 rfl rfl
    simp only [calculateStats, totalDistanceAux, hterm, List.map_cons,
      List.map_nil, List.foldl_cons, List.foldl_nil, listMax, List.length_cons,
      List.length_nil, List.length_map]
    norm_num [TripStats.mk.injEq, show recA1.speed = (50:ℝ) from rfl,
      show recA2.speed = (60:ℝ) from rfl, max_def]

/-- C7 witness: the general zero-contribution statement instantiated at
scenario A's identical-coordinate pair. -/
theorem C7_witness :
    totalDistanceAux [recA1, recA2] = totalDistanceAux [recA2] :=
  C7_duplicate_coordinates.1 recA1 recA2 [] rfl rfl

/-- C8: on scenario B — samples at `(0, 0)` and `(0, 1)`, one degree of
longitude apart on the equator — the computed total distance lies within
0.1 km of 111.19 km. -/
theorem C8_equator_one_degree :
    |(calculateStats [recB1, recB2]).totalDistance - 111.19| ≤ 0.1 := by
  have hterm : haversineTerm recB2 recB1 =
      6371 * (|recB1.longitude - recB2.longitude| * Real.pi / 180) :=
    haversineTerm_equator recB2 recB1 rfl rfl (by norm_num [recB1, recB2])
  have habs : |recB1.longitude - recB2.longitude| = 1 := by norm_num [recB1, recB2]
  rw [habs] at hterm
  simp only [calculateStats, totalDistanceAux, hterm, List.length_cons, List.length_nil]
  norm_num
  rw [abs_le]
  constructor
  · nlinarith [Real.pi_gt_d4]
  · nlinarith [Real.pi_lt_d4]

/-- C9: the statistics computation is deterministic and stateless — the
value written by an invocation depends only on the input records, not on
the previously stored statistics, and repeating an invocation reproduces
the same value. -/
theorem C9_deterministic_stateless (records : List TrackingRecord) (s1 s2 : TripStats) :
    runCalculateStats records s1 = runCalculateStats records s2 ∧
      runCalculateStats records (runCalculateStats records s1) =
        runCalculateStats records s1 :=
  ⟨rfl, rfl⟩

/-- C10: permuting the input sequence leaves the computed record count,
average speed and maximum speed unchanged. -/
theorem C10_perm_invariant_count_avg_max (l1 l2 : List TrackingRecord)
    (h : l1.Perm l2) :
    (calculateStats l1).totalRecords = (calculateStats l2).totalRecords ∧
      (calculateStats l1).avgSpeed = (calculateStats l2).avgSpeed ∧
      (calculateStats l1).maxSpeed = (calculateStats l2).maxSpeed := by
  have hlen : l1.length = l2.length := h.length_eq
  rcases eq_or_ne l1 [] with rfl | hne
  · have : l2 = [] := h.symm.eq_nil
    rw [this]
    exact ⟨rfl, rfl, rfl⟩
  · have hne2 : l2 ≠ [] := fun h2 => hne (by rw [h2] at h; exact h.eq_nil)
    have hlen1 : ¬ l1.length = 0 := fun h0 => hne (List.length_eq_zero.mp h0)
    have hlen2 : ¬ l2.length = 0 := fun h0 => hne2 (List.length_eq_zero.mp h0)
    have hperm : (l1.map (·.speed)).Perm (l2.map (·.speed)) := h.map (·.speed)
    have hsum : (l1.map (·.speed)).sum = (l2.map (·.speed)).sum := hperm.sum_eq
    have hmapne : l1.map (·.speed) ≠ [] := fun hm => hne (List.map_eq_nil_iff.mp hm)
    simp only [calculateStats, if_neg hlen1, if_neg hlen2]
    refine ⟨hlen, ?_, listMax_perm _ _ hperm hmapne⟩
    rw [foldl_add_eq, foldl_add_eq, zero_add, zero_add, List.length_map, List.length_map,
      hsum, hlen]

/-- C10 witness: instantiation at a concrete two-element transposition. -/
theorem C10_witness :
    (calculateStats [recP1, recP2]).totalRecords =
        (calculateStats [recP2, recP1]).totalRecords ∧
      (calculateStats [recP1, recP2]).avgSpeed = (calculateStats [recP2, recP1]).avgSpeed ∧
      (calculateStats [recP1, recP2]).maxSpeed = (calculateStats [recP2, recP1]).maxSpeed :=
  C10_perm_invariant_count_avg_max [recP1, recP2] [recP2, recP1]
    (List.Perm.swap recP2 recP1 [])

/-- C1 counterexample: on the storage order `[recD2, recD1, recD3]`
(timestamps 2, 1, 3 — not sorted by timestamp), the total distance
computed by `calculateStats` differs from the sum of haversine distances
over temporally adjacent samples: the code pairs consecutive array
entries, so it accumulates `6371·π/2` km while the chronological
pairing accumulates `6371·π` km. -/
theorem C1_counterexample :
    (calculateStats unsortedTrack).totalDistance ≠ specChronoDistance unsortedTrack := by
  have h12 : ¬ recD2.timestamp ≤ recD1.timestamp := by norm_num [recD1, recD2]
  have h23 : recD2.timestamp ≤ recD3.timestamp := by norm_num [recD2, recD3]
  have h13 : recD1.timestamp ≤ recD3.timestamp := by norm_num [recD1, recD3]
  have hsort : sortTs unsortedTrack = [recD1, recD2, recD3] := by
    simp only [unsortedTrack, sortTs, insertTs, if_pos h13, if_neg h12, if_pos h23]
  have h180 : |recD2.longitude - recD1.longitude| = 90 := by norm_num [recD1, recD2]
  have h180b : |recD1.longitude - recD2.longitude| = 90 := by norm_num [recD1, recD2]
  have hAB : haversineTerm recD1 recD2 = 6371 * (90 * Real.pi / 180) := by
    rw [haversineTerm_equator recD1 recD2 rfl rfl (by norm_num [recD1, recD2]), h180]
  have hBA : haversineTerm recD2 recD1 = 6371 * (90 * Real.pi / 180) := by
    rw [haversineTerm_equator recD2 recD1 rfl rfl (by norm_num [recD1, recD2]), h180b]
  have hBC : haversineTerm recD3 recD2 = 6371 * (90 * Real.pi / 180) := by
    rw [haversineTerm_equator recD3 recD2 rfl rfl (by norm_num [recD2, recD3])]
    norm_num [recD2, recD3]
  have hAC : haversineTerm recD3 recD1 = 0 := haversineTerm_same recD3 recD1 rfl rfl
  rw [specChronoDistance, hsort, calculateStats_totalDistance]
  simp only [unsortedTrack, totalDistanceAux, hAB, hBA, hBC, hAC]
  intro heq
  nlinarith [Real.pi_pos]

/-- C1 (amended): when the records array is sorted by strictly
descending timestamp — the order in which the fetch query returns it —
the total distance computed by `calculateStats` equals the sum of
haversine distances over temporally adjacent samples; on unsorted
arrays the two can differ. -/
theorem C1_amended_sorted_desc (l : List TrackingRecord)
    (h : l.Pairwise (fun a b => b.timestamp < a.timestamp)) :
    (calculateStats l).totalDistance = specChronoDistance l := by
  have h1 : specChronoDistance l = totalDistanceAux l.reverse := by
    rw [specChronoDistance, sortTs_of_strictDesc l h]
  rw [h1, totalDistanceAux_reverse]
  by_cases hlen : l.length = 0
  · have hnil : l = [] := List.length_eq_zero.mp hlen
    rw [hnil]
    rfl
  · simp only [calculateStats, if_neg hlen]

/-- C1 witness: instantiation of the amended claim at the concrete
descending-timestamp array `[recD3, recD2, recD1]`. -/
theorem C1_witness :
    (calculateStats [recD3, recD2, recD1]).totalDistance =
      specChronoDistance [recD3, recD2, recD1] :=
  C1_amended_sorted_desc [recD3, recD2, recD1]
    (by norm_num [recD1, recD2, recD3, List.pairwise_cons])
